import Mathlib

/-!
Shallow embedding of the Pinia store lifecycle manager plugin
(`src/plugin.ts`, `src/utils.ts`, `src/types.ts`).

The store substrate is modelled as a keyed association list of values,
together with a per-key read-only classification, a set of keys whose
setter raises, and a set of keys holding actions.  The lifecycle
operations `resetState`, `reconfigureState` and `refreshState` are
translated directly from the source; diagnostics are modelled as a log
of structured lines, and caller-supplied resolver functions return
`Except String` so that a throwing resolver is representable.
-/

namespace PiniaLifecycle

abbrev Key := String

/-- A diagnostic line, as emitted by `debugLog`, `devWarnNonWritable`
and `devError` in `utils.ts`. -/
inductive LogLine where
  | debugMsg (storeId : String) (message : String)
  | warnNonWritable (storeId : String) (key : Key)
  | errorMsg (storeId : String) (message : String)
deriving DecidableEq

/-- The store model: id, keyed mutable state, the substrate's read-only
classification of keys, the keys whose setter throws on write, and the
keys that hold actions. -/
structure StoreModel (V : Type) where
  id : String
  state : List (Key × V)
  readonlyKeys : List Key
  failingKeys : List Key
  actions : List Key

variable {V P α : Type}

/-- `isReadonly(store[key])` — the substrate's read-only classifier. -/
def isReadonlyKey (s : StoreModel V) (k : Key) : Bool :=
  s.readonlyKeys.contains k

/-- Whether assigning `store[key]` throws (a setter that raises). -/
def writeFails (s : StoreModel V) (k : Key) : Bool :=
  s.failingKeys.contains k

/-- Whether `store[key]` is a callable action (`if (action)` in refresh). -/
def hasAction (s : StoreModel V) (k : Key) : Bool :=
  s.actions.contains k

/-- Keyed lookup on the state association list. -/
def lookupKey (k : Key) : List (Key × V) → Option V
  | [] => none
  | (a, v) :: rest => if a = k then some v else lookupKey k rest

/-- Keyed assignment `store[key] = value`: update in place, or append
when the key is new. -/
def setKey (k : Key) (v : V) : List (Key × V) → List (Key × V)
  | [] => [(k, v)]
  | (a, w) :: rest => if a = k then (a, v) :: rest else (a, w) :: setKey k v rest

/-- A declared configuration slot (`clean`, `reConfigure` or `refresh`):
a static value, a function of the store (declared arity ≥ 1), or a
zero-arity function.  Functions may throw (`Except.error`) and may
return nothing (`Option.none`, the JS `void` return). -/
inductive ConfigSource (V α : Type) where
  | static (m : α)
  | storeFn (f : StoreModel V → Except String (Option α))
  | noArgFn (f : Unit → Except String (Option α))

/-- The resolution ternary shared by all three operations
(`plugin.ts` lines 152–159, 212–220, 283–291): a function slot is
invoked with the store when its declared arity is positive, with no
arguments otherwise; a static slot is returned unchanged. -/
def resolveSource : ConfigSource V α → StoreModel V → Except String (Option α)
  | .static m, _ => .ok (some m)
  | .storeFn f, store => f store
  | .noArgFn f, _ => f ()

/-- One iteration of the per-key write loop shared by `resetState` and
`reconfigureState` (`plugin.ts` lines 162–182 and 223–248): skip a
read-only key (warning gated by debug logs), catch a throwing setter at
key granularity (`devError`, not gated), otherwise write the value
(debug line gated). -/
def applyKey (updMsg failMsg : String) (dbg : Bool) (store : StoreModel V)
    (st : List (Key × V)) (k : Key) (v : V) : List (Key × V) × List LogLine :=
  if isReadonlyKey store k then
    (st, if dbg then [LogLine.warnNonWritable store.id k] else [])
  else if writeFails store k then
    (st, [LogLine.errorMsg store.id (failMsg ++ k)])
  else
    (setKey k v st, if dbg then [LogLine.debugMsg store.id (updMsg ++ k)] else [])

/-- `Object.keys(options).forEach(...)`: apply every key of the resolved
property mapping in declaration order, threading the state. -/
def applyMapping (updMsg failMsg : String) (dbg : Bool) (store : StoreModel V) :
    List (Key × V) → List (Key × V) → List (Key × V) × List LogLine
  | [], st => (st, [])
  | (k, v) :: rest, st =>
    let r := applyKey updMsg failMsg dbg store st k v
    let r2 := applyMapping updMsg failMsg dbg store rest r.1
    (r2.1, r.2 ++ r2.2)

/-- `resetState` (`plugin.ts` lines 133–188): resolve the `clean` slot
(early return when undeclared), then apply the resolved mapping; a
resolver error propagates uncaught. -/
def resetState (dbg : Bool) (store : StoreModel V)
    (slot : Option (ConfigSource V (List (Key × V)))) :
    Except String (List (Key × V) × List LogLine) :=
  let log0 := if dbg then [LogLine.debugMsg store.id "Initiating reset state operation"] else []
  match slot with
  | none =>
    .ok (store.state, log0 ++
      (if dbg then [LogLine.debugMsg store.id "Reset state operation skipped: No clean options defined"] else []))
  | some src =>
    match resolveSource src store with
    | .error e => .error e
    | .ok res =>
      let applied :=
        match res with
        | none => (store.state, [])
        | some m =>
          applyMapping "Reset state: Updated " "Failed to reset state for key " dbg store m store.state
      .ok (applied.1, log0 ++ applied.2 ++
        (if dbg then [LogLine.debugMsg store.id "Reset state operation completed"] else []))

/-- `reconfigureState` (`plugin.ts` lines 193–254): identical to
`resetState` except that it resolves the `reConfigure` slot and labels
its diagnostics differently. -/
def reconfigureState (dbg : Bool) (store : StoreModel V)
    (slot : Option (ConfigSource V (List (Key × V)))) :
    Except String (List (Key × V) × List LogLine) :=
  let log0 := if dbg then [LogLine.debugMsg store.id "Initiating reconfigure state operation"] else []
  match slot with
  | none =>
    .ok (store.state, log0 ++
      (if dbg then [LogLine.debugMsg store.id "Reconfigure state operation skipped: No reconfigure options defined"] else []))
  | some src =>
    match resolveSource src store with
    | .error e => .error e
    | .ok res =>
      let applied :=
        match res with
        | none => (store.state, [])
        | some m =>
          applyMapping "Reconfigure state: Updated " "Failed to reconfigure state for key " dbg store m store.state
      .ok (applied.1, log0 ++ applied.2 ++
        (if dbg then [LogLine.debugMsg store.id "Reconfigure state operation completed"] else []))

/-- One entry of the resolved action mapping: both fields are optional
in the source (`value?.params ?? []`, `value?.resetOnly ?? false`). -/
structure ActionEntry (P : Type) where
  params : Option (List P)
  resetOnly : Option Bool
deriving DecidableEq

/-- The per-entry filter of `refreshState` (`plugin.ts` lines 296–302):
`mode === "full" ? !includeResetOnlyActions || (includeResetOnlyActions
&& actionResetOnly) : !actionResetOnly`. -/
def shouldInclude (mode : String) (includeResetOnlyActions : Bool)
    (e : ActionEntry P) : Bool :=
  let actionResetOnly := e.resetOnly.getD false
  if mode = "full" then
    !includeResetOnlyActions || (includeResetOnlyActions && actionResetOnly)
  else
    !actionResetOnly

/-- The filtering stage of `refreshState` (`plugin.ts` lines 294–314):
keep the entries passing `shouldInclude`, in declaration order. -/
def filterRefresh (mode : String) (inc : Bool)
    (m : List (Key × ActionEntry P)) : List (Key × ActionEntry P) :=
  m.filter (fun kv => shouldInclude mode inc kv.2)

/-- The dispatch stage of `refreshState` (`plugin.ts` lines 316–333):
for each surviving entry, invoke the store action with its parameters
when it exists, otherwise skip with a (gated) diagnostic.  Returns the
invocation list (action key with positional parameters, in order). -/
def dispatchActions (dbg : Bool) (store : StoreModel V) :
    List (Key × ActionEntry P) → List (Key × List P) × List LogLine
  | [] => ([], [])
  | (k, e) :: rest =>
    let r := dispatchActions dbg store rest
    if hasAction store k then
      ((k, e.params.getD []) :: r.1,
       (if dbg then [LogLine.debugMsg store.id ("Executing refresh action: " ++ k)] else []) ++ r.2)
    else
      (r.1,
       (if dbg then [LogLine.debugMsg store.id ("Skipped non-existent refresh action: " ++ k)] else []) ++ r.2)

/-- The caller-facing refresh options: the mode string and the optional
`includeResetOnlyActions` flag, defaulted to `false` on destructuring. -/
structure RefreshCallOptions where
  mode : String
  includeResetOnlyActions : Option Bool

/-- `refreshState` (`plugin.ts` lines 260–343): resolve the `refresh`
slot (early return when undeclared), filter the resolved action mapping
by mode and flag, and dispatch the survivors; a resolver error
propagates uncaught. -/
def refreshState (dbg : Bool) (store : StoreModel V)
    (slot : Option (ConfigSource V (List (Key × ActionEntry P))))
    (opts : RefreshCallOptions) :
    Except String (List (Key × List P) × List LogLine) :=
  let inc := opts.includeResetOnlyActions.getD false
  let log0 := if dbg then [LogLine.debugMsg store.id "Initiating refresh action"] else []
  match slot with
  | none =>
    .ok ([], log0 ++
      (if dbg then [LogLine.debugMsg store.id "Refresh action skipped: No refresh options defined"] else []))
  | some src =>
    match resolveSource src store with
    | .error e => .error e
    | .ok res =>
      match res with
      | none =>
        .ok ([], log0 ++
          (if dbg then [LogLine.debugMsg store.id "Refresh action skipped: Invalid refresh result"] else []) ++
          (if dbg then [LogLine.debugMsg store.id "Refresh action completed"] else []))
      | some m =>
        let filterLogs :=
          if dbg then m.map (fun kv => LogLine.debugMsg store.id ("Filtering refresh action: " ++ kv.1)) else []
        let d := dispatchActions dbg store (filterRefresh opts.mode inc m)
        .ok (d.1, log0 ++ filterLogs ++ d.2 ++
          (if dbg then [LogLine.debugMsg store.id "Refresh action completed"] else []))

/-- The runtime tuning options passed at attachment time
(`pluginOptions`, possibly absent as a whole). -/
structure PluginOptions where
  disableAutoRegister : Option Bool
  enableDebugLogs : Option Bool
  enableSSR : Option Bool

/-- The `$state` key set of a store, as seen by `hasOwnProperty`. -/
structure GateStore where
  stateKeys : List String
deriving DecidableEq

/-- Truthiness of an optional boolean flag (`pluginOptions?.flag`). -/
def optFlag (o : Option Bool) : Bool := o.getD false

/-- The attachment gate of `PiniaStoreLifecycleManager` (`plugin.ts`
lines 70–128): environment check, then attach — store the reactive flag
under `_hasStoreLifecycleManagerListener` and invoke the caller-supplied
handler — exactly when `$state` has no own property named
`hasStoreLifecycleManagerListener` and the registration policy holds.
Returns the updated `$state` key set and whether the handler was
invoked by this call. -/
def pluginInvoke (clientEnv : Bool) (popts : Option PluginOptions)
    (disableListener : Option Bool) (st : GateStore) : GateStore × Bool :=
  let dar := optFlag (popts.bind PluginOptions.disableAutoRegister)
  let ssr := optFlag (popts.bind PluginOptions.enableSSR)
  if !clientEnv && !ssr then (st, false)
  else if !(st.stateKeys.contains "hasStoreLifecycleManagerListener")
      && ((!dar && disableListener != some true)
          || (dar && disableListener == some false)) then
    ({ stateKeys := st.stateKeys ++ ["_hasStoreLifecycleManagerListener"] }, true)
  else (st, false)

/-- The state component of an operation's result. -/
def resultOf (r : Except String (α × List LogLine)) : Except String α :=
  r.map Prod.fst

/-- The diagnostic log of an operation's result (empty on error). -/
def logsOf (r : Except String (α × List LogLine)) : List LogLine :=
  match r with
  | .ok p => p.2
  | .error _ => []

/-- Whether a line is a `devError` report. -/
def isErrorLine : LogLine → Bool
  | .errorMsg _ _ => true
  | _ => false

/-- The keys of the resolved property mapping of a slot (empty when the
slot is undeclared, the resolver returns nothing, or it throws). -/
def resolvedKeys (slot : Option (ConfigSource V (List (Key × V))))
    (store : StoreModel V) : List Key :=
  match slot with
  | none => []
  | some src =>
    match resolveSource src store with
    | .ok (some m) => m.map Prod.fst
    | _ => []

end PiniaLifecycle

namespace PiniaLifecycle

variable {V P α : Type}

theorem lookupKey_setKey_self (k : Key) (v : V) (st : List (Key × V)) :
    lookupKey k (setKey k v st) = some v := by
  induction st with
  | nil => simp [setKey, lookupKey]
  | cons hd tl ih =>
    obtain ⟨a, w⟩ := hd
    by_cases h : a = k
    · simp [setKey, lookupKey, h]
    · simp [setKey, lookupKey, h, ih]

theorem lookupKey_setKey_ne {a k : Key} (h : a ≠ k) (v : V) (st : List (Key × V)) :
    lookupKey k (setKey a v st) = lookupKey k st := by
  induction st with
  | nil => simp [setKey, lookupKey, h]
  | cons hd tl ih =>
    obtain ⟨b, w⟩ := hd
    by_cases hb : b = a
    · subst hb
      simp [setKey, lookupKey, h]
    · simp [setKey, lookupKey, hb, ih]

theorem applyKey_fst_lookup_ne (updMsg failMsg : String) (dbg : Bool)
    (store : StoreModel V) (st : List (Key × V)) {a k : Key} (h : a ≠ k) (v : V) :
    lookupKey k (applyKey updMsg failMsg dbg store st a v).1 = lookupKey k st := by
  unfold applyKey
  by_cases hro : isReadonlyKey store a
  · simp [hro]
  · by_cases hf : writeFails store a
    · simp [hro, hf]
    · simp [hro, hf, lookupKey_setKey_ne h]

theorem applyKey_fst_dbg (updMsg failMsg : String) (d1 d2 : Bool)
    (store : StoreModel V) (st : List (Key × V)) (k : Key) (v : V) :
    (applyKey updMsg failMsg d1 store st k v).1
      = (applyKey updMsg failMsg d2 store st k v).1 := by
  unfold applyKey
  by_cases hro : isReadonlyKey store k
  · simp [hro]
  · by_cases hf : writeFails store k
    · simp [hro, hf]
    · simp [hro, hf]

theorem applyMapping_lookup_not_mem (updMsg failMsg : String) (dbg : Bool)
    (store : StoreModel V) {m : List (Key × V)} {k : Key}
    (h : k ∉ m.map Prod.fst) (st : List (Key × V)) :
    lookupKey k (applyMapping updMsg failMsg dbg store m st).1 = lookupKey k st := by
  induction m generalizing st with
  | nil => simp [applyMapping]
  | cons hd tl ih =>
    obtain ⟨a, v⟩ := hd
    simp only [List.map_cons, List.mem_cons, not_or] at h
    simp only [applyMapping]
    rw [ih h.2, applyKey_fst_lookup_ne _ _ _ _ _ (Ne.symm h.1)]

theorem applyMapping_lookup_readonly (updMsg failMsg : String) (dbg : Bool)
    (store : StoreModel V) {k : Key} (hro : isReadonlyKey store k = true)
    (m : List (Key × V)) (st : List (Key × V)) :
    lookupKey k (applyMapping updMsg failMsg dbg store m st).1 = lookupKey k st := by
  induction m generalizing st with
  | nil => simp [applyMapping]
  | cons hd tl ih =>
    obtain ⟨a, v⟩ := hd
    simp only [applyMapping]
    rw [ih]
    by_cases ha : a = k
    · subst ha
      simp [applyKey, hro]
    · rw [applyKey_fst_lookup_ne _ _ _ _ _ ha]

theorem applyMapping_lookup_mem (updMsg failMsg : String) (dbg : Bool)
    (store : StoreModel V) {m : List (Key × V)} {k : Key} {v : V}
    (hnd : (m.map Prod.fst).Nodup) (hm : (k, v) ∈ m)
    (hro : isReadonlyKey store k = false) (hf : writeFails store k = false)
    (st : List (Key × V)) :
    lookupKey k (applyMapping updMsg failMsg dbg store m st).1 = some v := by
  induction m generalizing st with
  | nil => simp at hm
  | cons hd tl ih =>
    obtain ⟨a, w⟩ := hd
    simp only [List.map_cons, List.nodup_cons] at hnd
    rcases List.mem_cons.mp hm with heq | htl
    · obtain ⟨rfl, rfl⟩ := Prod.mk.injEq .. ▸ heq
      have hknotin : k ∉ tl.map Prod.fst := hnd.1
      simp only [applyMapping]
      rw [applyMapping_lookup_not_mem _ _ _ _ hknotin]
      simp [applyKey, hro, hf, lookupKey_setKey_self]
    · simp only [applyMapping]
      exact ih hnd.2 htl _

theorem applyMapping_fst_dbg (updMsg failMsg : String) (d1 d2 : Bool)
    (store : StoreModel V) (m : List (Key × V)) (st : List (Key × V)) :
    (applyMapping updMsg failMsg d1 store m st).1
      = (applyMapping updMsg failMsg d2 store m st).1 := by
  induction m generalizing st with
  | nil => simp [applyMapping]
  | cons hd tl ih =>
    obtain ⟨a, v⟩ := hd
    simp only [applyMapping]
    rw [applyKey_fst_dbg _ _ d1 d2, ih]

theorem applyMapping_logs_all_error (updMsg failMsg : String)
    (store : StoreModel V) (m : List (Key × V)) (st : List (Key × V)) :
    ((applyMapping updMsg failMsg false store m st).2.all isErrorLine) = true := by
  induction m generalizing st with
  | nil => simp [applyMapping]
  | cons hd tl ih =>
    obtain ⟨a, v⟩ := hd
    simp only [applyMapping, List.all_append, Bool.and_eq_true]
    refine ⟨?_, ih _⟩
    unfold applyKey
    by_cases hro : isReadonlyKey store a
    · simp [hro]
    · by_cases hf : writeFails store a
      · simp [hro, hf, isErrorLine]
      · simp [hro, hf]

end PiniaLifecycle

namespace PiniaLifecycle

variable {V P α : Type}

theorem mem_dispatchActions_hasAction (dbg : Bool) (store : StoreModel V)
    {l : List (Key × ActionEntry P)} {k : Key} {p : List P}
    (h : (k, p) ∈ (dispatchActions dbg store l).1) :
    hasAction store k = true := by
  induction l with
  | nil => simp [dispatchActions] at h
  | cons hd tl ih =>
    obtain ⟨a, e⟩ := hd
    by_cases ha : hasAction store a
    · simp only [dispatchActions, ha, if_pos] at h
      rcases List.mem_cons.mp h with heq | htl
      · obtain ⟨rfl, rfl⟩ := Prod.mk.injEq .. ▸ heq
        exact ha
      · exact ih htl
    · simp only [dispatchActions, ha, if_neg] at h
      exact ih h

theorem dispatchActions_mem (dbg : Bool) (store : StoreModel V)
    {l : List (Key × ActionEntry P)} {k : Key} {e : ActionEntry P}
    (h : (k, e) ∈ l) (ha : hasAction store k = true) :
    (k, e.params.getD []) ∈ (dispatchActions dbg store l).1 := by
  induction l with
  | nil => simp at h
  | cons hd tl ih =>
    obtain ⟨a, e'⟩ := hd
    rcases List.mem_cons.mp h with heq | htl
    · obtain ⟨rfl, rfl⟩ := Prod.mk.injEq .. ▸ heq
      simp [dispatchActions, ha]
    · by_cases hb : hasAction store a
      · simp only [dispatchActions, hb, if_pos]
        exact List.mem_cons_of_mem _ (ih htl)
      · simp only [dispatchActions, hb, if_neg]
        exact ih htl

theorem dispatchActions_fst_dbg (d1 d2 : Bool) (store : StoreModel V)
    (l : List (Key × ActionEntry P)) :
    (dispatchActions d1 store l).1 = (dispatchActions d2 store l).1 := by
  induction l with
  | nil => simp [dispatchActions]
  | cons hd tl ih =>
    obtain ⟨a, e⟩ := hd
    by_cases ha : hasAction store a
    · simp [dispatchActions, ha, ih]
    · simp [dispatchActions, ha, ih]

theorem dispatchActions_logs_false (store : StoreModel V)
    (l : List (Key × ActionEntry P)) :
    (dispatchActions false store l).2 = [] := by
  induction l with
  | nil => simp [dispatchActions]
  | cons hd tl ih =>
    obtain ⟨a, e⟩ := hd
    by_cases ha : hasAction store a
    · simp [dispatchActions, ha, ih]
    · simp [dispatchActions, ha, ih]

theorem mem_filterRefresh (mode : String) (inc : Bool)
    (m : List (Key × ActionEntry P)) (k : Key) (e : ActionEntry P) :
    (k, e) ∈ filterRefresh mode inc m ↔ (k, e) ∈ m ∧ shouldInclude mode inc e = true := by
  simp [filterRefresh, List.mem_filter]

end PiniaLifecycle

namespace PiniaLifecycle

variable {V P α : Type}

theorem shouldInclude_full (ib : Bool) (e : ActionEntry P) :
    shouldInclude "full" ib e = (!ib || (ib && e.resetOnly.getD false)) := by
  simp [shouldInclude]

theorem shouldInclude_partialMode (ib : Bool) (e : ActionEntry P) :
    shouldInclude "partial" ib e = !(e.resetOnly.getD false) := by
  have hne : ¬ (("partial" : String) = "full") := by decide
  simp [shouldInclude, hne]

theorem resetState_resolve_error (dbg : Bool) (store : StoreModel V)
    {src : ConfigSource V (List (Key × V))} {e : String}
    (h : resolveSource src store = Except.error e) :
    resetState dbg store (some src) = .error e := by
  simp [resetState, h]

theorem reconfigureState_resolve_error (dbg : Bool) (store : StoreModel V)
    {src : ConfigSource V (List (Key × V))} {e : String}
    (h : resolveSource src store = Except.error e) :
    reconfigureState dbg store (some src) = .error e := by
  simp [reconfigureState, h]

theorem refreshState_resolve_error (dbg : Bool) (store : StoreModel V)
    {src : ConfigSource V (List (Key × ActionEntry P))} {e : String}
    (opts : RefreshCallOptions) (h : resolveSource src store = Except.error e) :
    refreshState dbg store (some src) opts = .error e := by
  simp [refreshState, h]

/-- Claim C1: for every resolved action mapping and every entry, the
refresh filter obeys the truth table exactly: mode "partial" includes an
entry iff its effective resetOnly flag is false (whatever the value of
`includeResetOnlyActions`); mode "full" with the flag defaulted to
false includes every entry; mode "full" with the flag true includes an
entry iff its effective resetOnly flag is true. -/
theorem claim_C1_refresh_filter_truth_table
    (m : List (Key × ActionEntry P)) (k : Key) (e : ActionEntry P) (ib : Bool) :
    ((k, e) ∈ filterRefresh "partial" ib m ↔ (k, e) ∈ m ∧ e.resetOnly.getD false = false)
  ∧ ((k, e) ∈ filterRefresh "full" false m ↔ (k, e) ∈ m)
  ∧ ((k, e) ∈ filterRefresh "full" true m ↔ (k, e) ∈ m ∧ e.resetOnly.getD false = true) := by
  refine ⟨?_, ?_, ?_⟩ <;> rw [mem_filterRefresh]
  · rw [shouldInclude_partialMode]
    simp [Bool.not_eq_true']
  · rw [shouldInclude_full]
    simp
  · rw [shouldInclude_full]
    simp

/-- Claim C2 (code bug): the attachment guard tests
`$state.hasOwnProperty("hasStoreLifecycleManagerListener")` while the
attachment stores the flag under `"_hasStoreLifecycleManagerListener"`,
so for a fresh store in a client environment with default options a
second invocation of the plugin entry point attaches again and invokes
the caller-supplied handler a second time. -/
theorem claim_C2_double_attachment_bug :
    ((pluginInvoke true none none ⟨[]⟩).2 = true)
  ∧ ((pluginInvoke true none none (pluginInvoke true none none ⟨[]⟩).1).2 = true)
  ∧ ((pluginInvoke true none none ⟨[]⟩).1.stateKeys
      = ["_hasStoreLifecycleManagerListener"])
  ∧ ((pluginInvoke true none none ⟨[]⟩).1.stateKeys.contains
      "hasStoreLifecycleManagerListener" = false) := by
  refine ⟨rfl, ?_, rfl, ?_⟩ <;> decide

/-- Claim C6: with the attachment flag absent and the client
environment check passed, the gate registers iff the override semantics
hold: a per-store `disableListener = false` registers even when
`disableAutoRegister` is true; `disableListener = true` skips even when
`disableAutoRegister` is false or absent; with `disableListener`
absent, registration happens iff `disableAutoRegister` is false or
absent. -/
theorem claim_C6_gate_registration_policy (dar dl : Option Bool) :
    (pluginInvoke true (some ⟨dar, none, none⟩) dl ⟨[]⟩).2 =
      (match dl with
       | some false => true
       | some true => false
       | none => !(dar.getD false)) := by
  revert dar dl
  decide

/-- Claim C4: a caller-supplied resolver function that throws is not
caught: `resetState`, `reconfigureState` and `refreshState` propagate
the error to their invoker (the operation evaluates to that error, so
the pass produces no state mutation and no action invocation), for both
the store-argument and the zero-arity function shapes. -/
theorem claim_C4_resolver_error_propagates (store : StoreModel V) (dbg : Bool) (e : String)
    (f : StoreModel V → Except String (Option (List (Key × V))))
    (g : Unit → Except String (Option (List (Key × V))))
    (fr : StoreModel V → Except String (Option (List (Key × ActionEntry P))))
    (gr : Unit → Except String (Option (List (Key × ActionEntry P))))
    (opts : RefreshCallOptions)
    (hf : f store = .error e) (hg : g () = .error e)
    (hfr : fr store = .error e) (hgr : gr () = .error e) :
    resetState dbg store (some (.storeFn f)) = .error e
  ∧ resetState dbg store (some (.noArgFn g)) = .error e
  ∧ reconfigureState dbg store (some (.storeFn f)) = .error e
  ∧ reconfigureState dbg store (some (.noArgFn g)) = .error e
  ∧ refreshState dbg store (some (.storeFn fr)) opts = .error e
  ∧ refreshState dbg store (some (.noArgFn gr)) opts = .error e :=
  ⟨resetState_resolve_error dbg store hf,
   resetState_resolve_error dbg store hg,
   reconfigureState_resolve_error dbg store hf,
   reconfigureState_resolve_error dbg store hg,
   refreshState_resolve_error dbg store opts hfr,
   refreshState_resolve_error dbg store opts hgr⟩

theorem claim_C4_witness :
    resetState false (⟨"s", [("a", (0 : Nat))], [], [], []⟩ : StoreModel Nat)
        (some (.storeFn (fun _ => .error "resolver failure"))) = .error "resolver failure"
  ∧ resetState false (⟨"s", [("a", (0 : Nat))], [], [], []⟩ : StoreModel Nat)
        (some (.noArgFn (fun _ => .error "resolver failure"))) = .error "resolver failure"
  ∧ reconfigureState false (⟨"s", [("a", (0 : Nat))], [], [], []⟩ : StoreModel Nat)
        (some (.storeFn (fun _ => .error "resolver failure"))) = .error "resolver failure"
  ∧ reconfigureState false (⟨"s", [("a", (0 : Nat))], [], [], []⟩ : StoreModel Nat)
        (some (.noArgFn (fun _ => .error "resolver failure"))) = .error "resolver failure"
  ∧ refreshState false (⟨"s", [("a", (0 : Nat))], [], [], []⟩ : StoreModel Nat)
        (some (.storeFn (fun _ => .error "resolver failure")))
        (⟨"full", none⟩ : RefreshCallOptions) = (.error "resolver failure" : Except String (List (Key × List Nat) × List LogLine))
  ∧ refreshState false (⟨"s", [("a", (0 : Nat))], [], [], []⟩ : StoreModel Nat)
        (some (.noArgFn (fun _ => .error "resolver failure")))
        (⟨"full", none⟩ : RefreshCallOptions) = (.error "resolver failure" : Except String (List (Key × List Nat) × List LogLine)) :=
  claim_C4_resolver_error_propagates _ false "resolver failure" _ _ _ _ _ rfl rfl rfl rfl

/-- Claim C7: the shape of a configuration source never affects the
applied result — two declared sources that resolve identically on the
same store yield the same state from `resetState` and from
`reconfigureState`. -/
theorem claim_C7_source_shape_irrelevant (store : StoreModel V) (dbg : Bool)
    (s1 s2 : ConfigSource V (List (Key × V)))
    (h : resolveSource s1 store = resolveSource s2 store) :
    resultOf (resetState dbg store (some s1)) = resultOf (resetState dbg store (some s2))
  ∧ resultOf (reconfigureState dbg store (some s1)) = resultOf (reconfigureState dbg store (some s2)) := by
  constructor
  · simp only [resetState, h]
  · simp only [reconfigureState, h]

theorem claim_C7_witness :
    resultOf (resetState true (⟨"s", [("a", (0 : Nat))], [], [], []⟩ : StoreModel Nat)
        (some (.static [("a", 1)])))
      = resultOf (resetState true (⟨"s", [("a", (0 : Nat))], [], [], []⟩ : StoreModel Nat)
        (some (.noArgFn (fun _ => .ok (some [("a", 1)])))))
  ∧ resultOf (reconfigureState true (⟨"s", [("a", (0 : Nat))], [], [], []⟩ : StoreModel Nat)
        (some (.static [("a", 1)])))
      = resultOf (reconfigureState true (⟨"s", [("a", (0 : Nat))], [], [], []⟩ : StoreModel Nat)
        (some (.noArgFn (fun _ => .ok (some [("a", 1)]))))) :=
  claim_C7_source_shape_irrelevant _ true _ _ rfl

end PiniaLifecycle

namespace PiniaLifecycle

variable {V P α : Type}

theorem resultOf_ok (x : α) (lg : List LogLine) :
    resultOf (Except.ok (x, lg)) = .ok x := rfl

theorem resultOf_error (e : String) :
    resultOf (Except.error (ε := String) (α := α × List LogLine) e) = .error e := rfl

/-- Claim C3: a failing write on key `k` is caught at key granularity:
with a static mapping containing both a failing key `k` and a writable,
non-failing key `k'`, `resetState` and `reconfigureState` still return
normally and `k'` ends up holding its mapped value. -/
theorem claim_C3_per_key_failure_isolation (store : StoreModel V)
    (m : List (Key × V)) (dbg : Bool) (k k' : Key) (v' : V)
    (hnd : (m.map Prod.fst).Nodup)
    (hk : writeFails store k = true) (hkm : k ∈ m.map Prod.fst) (hne : k ≠ k')
    (hm : (k', v') ∈ m) (hro : isReadonlyKey store k' = false)
    (hf : writeFails store k' = false) :
    (∃ st lg, resetState dbg store (some (.static m)) = .ok (st, lg)
      ∧ lookupKey k' st = some v')
  ∧ (∃ st lg, reconfigureState dbg store (some (.static m)) = .ok (st, lg)
      ∧ lookupKey k' st = some v') := by
  constructor
  · exact ⟨_, _, rfl, applyMapping_lookup_mem _ _ _ _ hnd hm hro hf _⟩
  · exact ⟨_, _, rfl, applyMapping_lookup_mem _ _ _ _ hnd hm hro hf _⟩

theorem claim_C3_witness :
    (∃ st lg, resetState false (⟨"s", [("a", (0 : Nat)), ("b", 0)], [], ["a"], []⟩ : StoreModel Nat)
        (some (.static [("a", 5), ("b", 7)])) = .ok (st, lg) ∧ lookupKey "b" st = some 7)
  ∧ (∃ st lg, reconfigureState false (⟨"s", [("a", (0 : Nat)), ("b", 0)], [], ["a"], []⟩ : StoreModel Nat)
        (some (.static [("a", 5), ("b", 7)])) = .ok (st, lg) ∧ lookupKey "b" st = some 7) :=
  claim_C3_per_key_failure_isolation _ [("a", 5), ("b", 7)] false "a" "b" 7
    (by decide) (by decide) (by decide) (by decide) (by decide) (by decide) (by decide)

/-- Claim C5: a key classified read-only by the store substrate is
never written: whenever `resetState` or `reconfigureState` returns
normally, the value of a read-only key in the resulting state equals
its value in the prior state, whatever the configuration slot. -/
theorem claim_C5_readonly_never_written (store : StoreModel V) (dbg : Bool)
    (slotA slotB : Option (ConfigSource V (List (Key × V)))) (k : Key)
    (hro : isReadonlyKey store k = true) :
    (∀ st lg, resetState dbg store slotA = .ok (st, lg) →
       lookupKey k st = lookupKey k store.state)
  ∧ (∀ st lg, reconfigureState dbg store slotB = .ok (st, lg) →
       lookupKey k st = lookupKey k store.state) := by
  constructor
  · intro st lg h
    cases slotA with
    | none =>
      simp [resetState] at h
      rw [← h.1]
    | some src =>
      cases hr : resolveSource src store with
      | error e =>
        rw [resetState_resolve_error dbg store hr] at h
        simp at h
      | ok res =>
        cases res with
        | none =>
          simp [resetState, hr] at h
          rw [← h.1]
        | some m =>
          simp [resetState, hr] at h
          rw [← h.1]
          exact applyMapping_lookup_readonly _ _ _ _ hro _ _
  · intro st lg h
    cases slotB with
    | none =>
      simp [reconfigureState] at h
      rw [← h.1]
    | some src =>
      cases hr : resolveSource src store with
      | error e =>
        rw [reconfigureState_resolve_error dbg store hr] at h
        simp at h
      | ok res =>
        cases res with
        | none =>
          simp [reconfigureState, hr] at h
          rw [← h.1]
        | some m =>
          simp [reconfigureState, hr] at h
          rw [← h.1]
          exact applyMapping_lookup_readonly _ _ _ _ hro _ _

theorem claim_C5_witness :
    lookupKey "r" [("r", (3 : Nat)), ("u", 2)]
      = lookupKey "r" (⟨"s", [("r", (3 : Nat)), ("u", 1)], ["r"], [], []⟩ : StoreModel Nat).state :=
  (claim_C5_readonly_never_written (⟨"s", [("r", 3), ("u", 1)], ["r"], [], []⟩ : StoreModel Nat)
      false (some (.static [("r", 9), ("u", 2)])) none "r" (by decide)).1
    [("r", 3), ("u", 2)] [] rfl

/-- Claim C8: an entry surviving the refresh filter whose key holds no
store action is skipped: `refreshState` returns normally, never invokes
anything for that key, and still dispatches every surviving entry whose
action exists. -/
theorem claim_C8_missing_action_skipped (store : StoreModel V)
    (m : List (Key × ActionEntry P)) (opts : RefreshCallOptions) (dbg : Bool)
    (k : Key) (hk : hasAction store k = false) :
    ∃ invs lg,
      refreshState dbg store (some (.static m)) opts = .ok (invs, lg)
      ∧ (∀ p, (k, p) ∉ invs)
      ∧ (∀ k' e', (k', e') ∈ filterRefresh opts.mode (opts.includeResetOnlyActions.getD false) m →
          hasAction store k' = true → (k', e'.params.getD []) ∈ invs) := by
  refine ⟨_, _, rfl, ?_, ?_⟩
  · intro p hp
    have hka := mem_dispatchActions_hasAction dbg store hp
    rw [hk] at hka
    exact Bool.false_ne_true hka
  · intro k' e' hmem ha
    exact dispatchActions_mem dbg store hmem ha

theorem claim_C8_witness :
    ∃ invs lg,
      refreshState false (⟨"s", [], [], [], ["load"]⟩ : StoreModel Nat)
          (some (.static [("load", (⟨some [1], some false⟩ : ActionEntry Nat)), ("missing", ⟨none, none⟩)]))
          (⟨"full", none⟩ : RefreshCallOptions) = .ok (invs, lg)
      ∧ (∀ p, ("missing", p) ∉ invs)
      ∧ (∀ k' e', (k', e') ∈ filterRefresh "full" false
            [("load", (⟨some [1], some false⟩ : ActionEntry Nat)), ("missing", ⟨none, none⟩)] →
          hasAction (⟨"s", [], [], [], ["load"]⟩ : StoreModel Nat) k' = true →
          (k', e'.params.getD []) ∈ invs) :=
  claim_C8_missing_action_skipped (⟨"s", [], [], [], ["load"]⟩ : StoreModel Nat)
    [("load", (⟨some [1], some false⟩ : ActionEntry Nat)), ("missing", ⟨none, none⟩)]
    (⟨"full", none⟩ : RefreshCallOptions) false "missing" (by decide)

end PiniaLifecycle

namespace PiniaLifecycle

variable {V P α : Type}

/-- Claim C9 counterexample: with `enableDebugLogs = false`, a failing
write still emits a `devError` line (`plugin.ts` lines 179–181 call
`devError` outside any `enableDebugLogs` guard), refuting the claim
that no diagnostic line is emitted when the flag is off. -/
theorem claim_C9_counterexample :
    logsOf (resetState false (⟨"s", [("a", (0 : Nat))], [], ["a"], []⟩ : StoreModel Nat)
        (some (.static [("a", 1)])))
      = [LogLine.errorMsg "s" "Failed to reset state for key a"] := by
  decide

/-- Claim C9 amended: diagnostics never affect behaviour — the store
mutations and invoked actions are identical in two runs differing only
in `enableDebugLogs` — and with `enableDebugLogs = false` no debug line
and no non-writable warning is emitted; per-key write-error reports,
however, are emitted regardless of the flag (so the `false` log stream
consists solely of error lines, and the refresh log stream is empty). -/
theorem claim_C9_amended (store : StoreModel V)
    (slotA slotB : Option (ConfigSource V (List (Key × V))))
    (slotR : Option (ConfigSource V (List (Key × ActionEntry P))))
    (opts : RefreshCallOptions) :
    resultOf (resetState true store slotA) = resultOf (resetState false store slotA)
  ∧ resultOf (reconfigureState true store slotB) = resultOf (reconfigureState false store slotB)
  ∧ resultOf (refreshState true store slotR opts) = resultOf (refreshState false store slotR opts)
  ∧ (logsOf (resetState false store slotA)).all isErrorLine = true
  ∧ (logsOf (reconfigureState false store slotB)).all isErrorLine = true
  ∧ logsOf (refreshState false store slotR opts) = [] := by
  refine ⟨?_, ?_, ?_, ?_, ?_, ?_⟩
  · cases slotA with
    | none => simp [resultOf, resetState, Except.map]
    | some src =>
      cases hr : resolveSource src store with
      | error e =>
        rw [resetState_resolve_error true store hr, resetState_resolve_error false store hr]
      | ok res =>
        cases res with
        | none => simp [resultOf, resetState, hr, Except.map]
        | some m =>
          simp [resultOf, resetState, hr, Except.map]
          exact applyMapping_fst_dbg _ _ true false store m store.state
  · cases slotB with
    | none => simp [resultOf, reconfigureState, Except.map]
    | some src =>
      cases hr : resolveSource src store with
      | error e =>
        rw [reconfigureState_resolve_error true store hr, reconfigureState_resolve_error false store hr]
      | ok res =>
        cases res with
        | none => simp [resultOf, reconfigureState, hr, Except.map]
        | some m =>
          simp [resultOf, reconfigureState, hr, Except.map]
          exact applyMapping_fst_dbg _ _ true false store m store.state
  · cases slotR with
    | none => simp [resultOf, refreshState, Except.map]
    | some src =>
      cases hr : resolveSource src store with
      | error e =>
        rw [refreshState_resolve_error true store opts hr, refreshState_resolve_error false store opts hr]
      | ok res =>
        cases res with
        | none => simp [resultOf, refreshState, hr, Except.map]
        | some m =>
          simp [resultOf, refreshState, hr, Except.map]
          exact dispatchActions_fst_dbg true false store _
  · cases slotA with
    | none => simp [logsOf, resetState]
    | some src =>
      cases hr : resolveSource src store with
      | error e =>
        rw [resetState_resolve_error false store hr]
        rfl
      | ok res =>
        cases res with
        | none => simp [logsOf, resetState, hr]
        | some m => simp [logsOf, resetState, hr, applyMapping_logs_all_error]
  · cases slotB with
    | none => simp [logsOf, reconfigureState]
    | some src =>
      cases hr : resolveSource src store with
      | error e =>
        rw [reconfigureState_resolve_error false store hr]
        rfl
      | ok res =>
        cases res with
        | none => simp [logsOf, reconfigureState, hr]
        | some m => simp [logsOf, reconfigureState, hr, applyMapping_logs_all_error]
  · cases slotR with
    | none => simp [logsOf, refreshState]
    | some src =>
      cases hr : resolveSource src store with
      | error e =>
        rw [refreshState_resolve_error false store opts hr]
        rfl
      | ok res =>
        cases res with
        | none => simp [logsOf, refreshState, hr]
        | some m => simp [logsOf, refreshState, hr, dispatchActions_logs_false]

/-- Claim C10: `resetState` and `reconfigureState` only ever write keys
of the resolved property mapping: any key outside it (including every
key when the slot is undeclared or the resolver returns nothing) holds
the same value after the operation as before. -/
theorem claim_C10_frame_property (store : StoreModel V) (dbg : Bool)
    (slotA slotB : Option (ConfigSource V (List (Key × V)))) (k : Key) :
    (∀ st lg, resetState dbg store slotA = .ok (st, lg) →
       k ∉ resolvedKeys slotA store → lookupKey k st = lookupKey k store.state)
  ∧ (∀ st lg, reconfigureState dbg store slotB = .ok (st, lg) →
       k ∉ resolvedKeys slotB store → lookupKey k st = lookupKey k store.state) := by
  constructor
  · intro st lg h hk
    cases slotA with
    | none =>
      simp [resetState] at h
      rw [← h.1]
    | some src =>
      cases hr : resolveSource src store with
      | error e =>
        rw [resetState_resolve_error dbg store hr] at h
        simp at h
      | ok res =>
        cases res with
        | none =>
          simp [resetState, hr] at h
          rw [← h.1]
        | some m =>
          simp [resetState, hr] at h
          rw [← h.1]
          apply applyMapping_lookup_not_mem
          simpa [resolvedKeys, hr] using hk
  · intro st lg h hk
    cases slotB with
    | none =>
      simp [reconfigureState] at h
      rw [← h.1]
    | some src =>
      cases hr : resolveSource src store with
      | error e =>
        rw [reconfigureState_resolve_error dbg store hr] at h
        simp at h
      | ok res =>
        cases res with
        | none =>
          simp [reconfigureState, hr] at h
          rw [← h.1]
        | some m =>
          simp [reconfigureState, hr] at h
          rw [← h.1]
          apply applyMapping_lookup_not_mem
          simpa [resolvedKeys, hr] using hk

theorem claim_C10_witness :
    lookupKey "b" [("a", (5 : Nat)), ("b", 1)]
      = lookupKey "b" (⟨"s", [("a", (0 : Nat)), ("b", 1)], [], [], []⟩ : StoreModel Nat).state :=
  (claim_C10_frame_property (⟨"s", [("a", 0), ("b", 1)], [], [], []⟩ : StoreModel Nat) false
      (some (.static [("a", 5)])) none "b").1
    [("a", 5), ("b", 1)] [] rfl (by decide)

end PiniaLifecycle
